import Mathlib

/-!
Verification development for the dudeatron security-scanning subsystem
(`scripts/security_patterns.py`, `scripts/check_sensitive_data.py`,
`scripts/security_scan.py`, `scripts/validate_examples.py`).

Strings are modelled as `List Char`.  Python's `re` module is modelled by a
small backtracking matcher (`mrun`) over a regular-expression syntax `RE`,
with Python's preference order: alternation prefers the left branch,
repetition is greedy, lookarounds are zero-width and atomic.  The matcher is
fueled (the fuel bounds the depth of the backtracking search; every wrapper
supplies fuel that is generous for the inputs involved, `mfuel`).
-/

namespace Dudeatron

/-- Strings as lists of characters (Python `str`). -/
abbrev Str := List Char

/-- Convert a Lean string literal to the model's string type. -/
def stos (s : String) : Str := s.data

/-- The newline character. -/
def nlc : Char := Char.ofNat 10

/-- The double-quote character. -/
def dqc : Char := Char.ofNat 34

/-- The single-quote character. -/
def sqc : Char := Char.ofNat 39

/-- The backtick character. -/
def btc : Char := Char.ofNat 96

/-- The left-brace character. -/
def lbc : Char := Char.ofNat 123

/-- The right-brace character. -/
def rbc : Char := Char.ofNat 125

/-- Python regex `\w` (for ASCII input): letters, digits, underscore. -/
def isWordChar (c : Char) : Bool := c.isAlphanum || c == '_'

/-- Regular-expression syntax, covering the constructs used by the
patterns in `security_patterns.py`:
literal characters, character classes (as predicates), concatenation,
alternation (left-preferring), greedy counted repetition
(`rep r lo hi`: at least `lo` and, when `hi = some m`, at most `m`
iterations; `hi = none` is unbounded), negative/positive lookahead,
single-character negative lookbehind, and the word boundary `\b`. -/
inductive RE where
  | eps : RE
  | chr : Char → RE
  | cls : (Char → Bool) → RE
  | seq : RE → RE → RE
  | alt : RE → RE → RE
  | rep : RE → Nat → Option Nat → RE
  | nla : RE → RE
  | pla : RE → RE
  | nlb : (Char → Bool) → RE
  | wb : RE

/-- Character test for a literal, honouring `re.IGNORECASE`. -/
def cmatch (ci : Bool) (a c : Char) : Bool :=
  a == c || (ci && (a.toLower == c.toLower))

/-- Character test for a class, honouring `re.IGNORECASE`. -/
def clsmatch (ci : Bool) (p : Char → Bool) (a : Char) : Bool :=
  p a || (ci && (p a.toLower || p a.toUpper))

/-- Word-boundary test: the previous character and the next character
disagree on word-character-ness (`\b`). -/
def atBoundary (prev : Option Char) (s : Str) : Bool :=
  let pw := match prev with | some c => isWordChar c | none => false
  let nw := match s with | c :: _ => isWordChar c | [] => false
  pw != nw

/-- Continuations for the backtracking matcher: take the character before
the current position and the remaining input, return the suffix left after
a successful overall match (or `none`). -/
abbrev Cont := Option Char → Str → Option Str

/-- Backtracking matcher in continuation-passing style, modelling Python's
`re` preference order.  `mrun ci fuel re prev s k` tries to match `re` at the
start of `s` (with `prev` the character before this position) and calls `k`
at each candidate end position, in Python's preference order; the first
success wins.  The fuel bounds the recursion depth and is decremented at
every call; wrappers pass fuel that is much larger than any search depth
reachable on their input. -/
def mrun (ci : Bool) : Nat → RE → Option Char → Str → Cont → Option Str
  | 0, _, _, _, _ => none
  | Nat.succ fuel, re, prev, s, k =>
    match re with
    | .eps => k prev s
    | .chr c =>
      match s with
      | [] => none
      | a :: rest => if cmatch ci a c then k (some a) rest else none
    | .cls p =>
      match s with
      | [] => none
      | a :: rest => if clsmatch ci p a then k (some a) rest else none
    | .seq r1 r2 => mrun ci fuel r1 prev s (fun p2 s2 => mrun ci fuel r2 p2 s2 k)
    | .alt r1 r2 =>
      match mrun ci fuel r1 prev s k with
      | some v => some v
      | none => mrun ci fuel r2 prev s k
    | .rep r lo hi =>
      match lo, hi with
      | Nat.succ n, _ =>
        mrun ci fuel r prev s
          (fun p2 s2 => mrun ci fuel (.rep r n (hi.map (· - 1))) p2 s2 k)
      | 0, some 0 => k prev s
      | 0, _ =>
        match mrun ci fuel r prev s
            (fun p2 s2 => mrun ci fuel (.rep r 0 (hi.map (· - 1))) p2 s2 k) with
        | some v => some v
        | none => k prev s
    | .nla r =>
      match mrun ci fuel r prev s (fun _ s2 => some s2) with
      | some _ => none
      | none => k prev s
    | .pla r =>
      match mrun ci fuel r prev s (fun _ s2 => some s2) with
      | some _ => k prev s
      | none => none
    | .nlb p =>
      match prev with
      | some c => if p c then none else k prev s
      | none => k prev s
    | .wb => if atBoundary prev s then k prev s else none

/-- Top-level match attempt at a fixed position: returns the suffix after
the preferred match, or `none`. -/
def mtop (ci : Bool) (fuel : Nat) (re : RE) (prev : Option Char) (s : Str) :
    Option Str :=
  mrun ci fuel re prev s (fun _ s2 => some s2)

/-- Fuel used by the wrappers: comfortably larger than the backtracking
depth any of the modelled patterns can reach on input `s`. -/
def mfuel (s : Str) : Nat := 100 * (s.length + 2)

/-- Position scan of Python's `re.search`: try each start position from left
to right (including the end-of-string position). -/
def searchGo (ci : Bool) (re : RE) (mf : Nat) :
    Nat → Option Char → Str → Bool
  | 0, _, _ => false
  | Nat.succ g, prev, s =>
    (mtop ci mf re prev s).isSome ||
      (match s with
       | [] => false
       | c :: rest => searchGo ci re mf g (some c) rest)

/-- Python `re.search(pattern, s)`: does the pattern match anywhere? -/
def re_search (ci : Bool) (re : RE) (s : Str) : Bool :=
  searchGo ci re (mfuel s) (s.length + 1) none s

/-- The character preceding the position after a match of text `m`. -/
def lastOf (m : Str) (prev : Option Char) : Option Char :=
  match m.getLast? with
  | some c => some c
  | none => prev

/-- Position scan of Python's `re.finditer`: non-overlapping matches, each
the leftmost match starting at or after the previous end; an empty match
advances the scan by one.  Each element is (start position, matched text). -/
def finditerGo (ci : Bool) (re : RE) (mf : Nat) :
    Nat → Option Char → Str → Nat → List (Nat × Str)
  | 0, _, _, _ => []
  | Nat.succ _, prev, [], pos =>
    (mtop ci mf re prev []).elim [] (fun _ => [(pos, [])])
  | Nat.succ g, prev, c :: tail, pos =>
    (mtop ci mf re prev (c :: tail)).elim
      (finditerGo ci re mf g (some c) tail (pos + 1))
      (fun rest =>
        if (c :: tail).length - rest.length = 0 then
          (pos, []) :: finditerGo ci re mf g (some c) tail (pos + 1)
        else
          (pos, (c :: tail).take ((c :: tail).length - rest.length)) ::
            finditerGo ci re mf g
              (lastOf ((c :: tail).take ((c :: tail).length - rest.length)) prev)
              rest (pos + ((c :: tail).length - rest.length)))

/-- Python `re.finditer(pattern, s)` as a list of (start, matched text). -/
def re_finditer (ci : Bool) (re : RE) (s : Str) : List (Nat × Str) :=
  finditerGo ci re (mfuel s) (s.length + 1) none s 0

/-! Combinators used to transcribe the concrete pattern strings. -/

/-- A sequence of literal characters. -/
def rchars : List Char → RE
  | [] => .eps
  | [c] => .chr c
  | c :: rest => .seq (.chr c) (rchars rest)

/-- A literal string pattern (every character escaped). -/
def rstr (s : String) : RE := rchars s.data

/-- Concatenation of a list of patterns. -/
def rcat : List RE → RE
  | [] => .eps
  | [r] => r
  | r :: rs => .seq r (rcat rs)

/-- Alternation of a list of patterns, preferring earlier entries. -/
def ralts : List RE → RE
  | [] => .cls (fun _ => false)
  | [r] => r
  | r :: rs => .alt r (ralts rs)

/-- Greedy `r?`. -/
def ropt (r : RE) : RE := .rep r 0 (some 1)

/-- Greedy `r+`. -/
def rplus (r : RE) : RE := .rep r 1 none

/-- Greedy `r*`. -/
def rstar (r : RE) : RE := .rep r 0 none

/-- Exactly-n repetition `r{n}`. -/
def rrep (r : RE) (n : Nat) : RE := .rep r n (some n)

/-- At-least-n repetition `r{n,}` (greedy). -/
def rrepGE (r : RE) (n : Nat) : RE := .rep r n none

/-- Bounded repetition `r{a,b}` (greedy). -/
def rrepR (r : RE) (a b : Nat) : RE := .rep r a (some b)

/-- Character range test. -/
def inRange (lo hi c : Char) : Bool := lo ≤ c && c ≤ hi

/-- Python `\d` (ASCII). -/
def dchar : RE := .cls Char.isDigit

/-- Python `\s` (ASCII practical subset). -/
def schar : RE := .cls Char.isWhitespace

/-! Transcriptions of the regexes in `scripts/security_patterns.py`.
Each definition mirrors one pattern string from the source. -/

/-- One IPv4 octet: `25[0-5]|2[0-4][0-9]|[01]?[0-9][0-9]?`. -/
def ipOctetRE : RE :=
  ralts [rcat [rstr "25", .cls (inRange '0' '5')],
         rcat [.chr '2', .cls (inRange '0' '4'), dchar],
         rcat [ropt (.cls (fun c => c == '0' || c == '1')), dchar, ropt dchar]]

/-- The dotted-quad core `(?:octet\.){3}octet` shared by `ip_non_rfc1918`
and `public_ip`. -/
def ipQuadRE : RE := rcat [rrep (rcat [ipOctetRE, .chr '.']) 3, ipOctetRE]

/-- `SENSITIVE_PATTERNS["ip_non_rfc1918"]`. -/
def ip_non_rfc1918_re : RE := ipQuadRE

/-- Hex digit class `[0-9a-f]`. -/
def hexCls : RE := .cls (fun c => c.isDigit || inRange 'a' 'f' c)

/-- `SENSITIVE_PATTERNS["mac_address"]`:
`(?i)(?:[0-9a-f]{2}[:\-]){5}(?:[0-9a-f]{2})`. -/
def mac_address_re : RE :=
  rcat [rrep (rcat [hexCls, hexCls, .cls (fun c => c == ':' || c == '-')]) 5,
        hexCls, hexCls]

/-- `SENSITIVE_PATTERNS["serial_number"]`: `(?i)\b[A-Z]{3}\d{5,}\b`. -/
def serial_number_re : RE :=
  rcat [.wb, rrep (.cls (inRange 'A' 'Z')) 3, rrepGE dchar 5, .wb]

/-- Class `[=:]`. -/
def eqColonCls : RE := .cls (fun c => c == '=' || c == ':')

/-- Class `['\"]`. -/
def quoteCls : RE := .cls (fun c => c == sqc || c == dqc)

/-- Class `[^\s'\"]`. -/
def notSpaceQuoteCls : RE :=
  .cls (fun c => !(c.isWhitespace || c == sqc || c == dqc))

/-- `SENSITIVE_PATTERNS["password"]`:
`(?i)(?:password|passwd|pwd|secret)\s*[=:]\s*['\"]?([^\s'\"]+)`. -/
def password_re : RE :=
  rcat [ralts [rstr "password", rstr "passwd", rstr "pwd", rstr "secret"],
        rstar schar, eqColonCls, rstar schar, ropt quoteCls,
        rplus notSpaceQuoteCls]

/-- Class `[a-z0-9]`. -/
def lowAlnumCls : RE := .cls (fun c => inRange 'a' 'z' c || c.isDigit)

/-- `SENSITIVE_PATTERNS["meraki_id"]`:
`(?i)\b(?=[a-z0-9\-]*\d)(?:[a-z0-9]{4,10}-){2,3}[a-z0-9]{4,10}\b`. -/
def meraki_id_re : RE :=
  rcat [.wb,
        .pla (rcat [rstar (.cls (fun c => inRange 'a' 'z' c || c.isDigit || c == '-')),
                    dchar]),
        rrepR (rcat [rrepR lowAlnumCls 4 10, .chr '-']) 2 3,
        rrepR lowAlnumCls 4 10, .wb]

/-- Class `[a-z0-9\-]`. -/
def labelCls : RE := .cls (fun c => inRange 'a' 'z' c || c.isDigit || c == '-')

/-- `SENSITIVE_PATTERNS["hostname_dns"]`:
`(?i)\b[a-z0-9](?:[a-z0-9\-]{0,61}[a-z0-9])?\.(?:[a-z0-9\-]{1,63}\.)?`
followed by the TLD alternation and `\b`. -/
def hostname_dns_re : RE :=
  rcat [.wb, lowAlnumCls,
        ropt (rcat [rrepR labelCls 0 61, lowAlnumCls]),
        .chr '.',
        ropt (rcat [rrepR labelCls 1 63, .chr '.']),
        ralts [rstr "com", rstr "net", rstr "org", rstr "io", rstr "gov",
               rstr "edu", rstr "co", rstr "uk", rstr "us", rstr "ca",
               rstr "ai", rstr "app", rstr "dev", rstr "cloud", rstr "local"],
        .wb]

/-- `SENSITIVE_PATTERNS["api_key_pattern"]`:
`(?i)(?:api[_-]?key|token)\s*[=:]\s*['\"]?([^\s'\"]+)['\"]?`. -/
def api_key_pattern_re : RE :=
  rcat [ralts [rcat [rstr "api", ropt (.cls (fun c => c == '_' || c == '-')),
                     rstr "key"],
               rstr "token"],
        rstar schar, eqColonCls, rstar schar, ropt quoteCls,
        rplus notSpaceQuoteCls, ropt quoteCls]

/-- `SENSITIVE_PATTERNS["ssh_key"]`:
`-----BEGIN (?:RSA|DSA|EC|OPENSSH) PRIVATE KEY`. -/
def ssh_key_re : RE :=
  rcat [rstr "-----BEGIN ",
        ralts [rstr "RSA", rstr "DSA", rstr "EC", rstr "OPENSSH"],
        rstr " PRIVATE KEY"]

/-- `SENSITIVE_PATTERNS["username_pattern"]`:
`(?i)(?:username|user)\s*[=:]\s*['\"]?([a-zA-Z0-9._\-]+)['\"]?`. -/
def username_pattern_re : RE :=
  rcat [ralts [rstr "username", rstr "user"],
        rstar schar, eqColonCls, rstar schar, ropt quoteCls,
        rplus (.cls (fun c => c.isAlphanum || c == '.' || c == '_' || c == '-')),
        ropt quoteCls]

/-- One named sensitive pattern of the catalog:
name, compiled pattern, description. -/
structure SPat where
  name : Str
  re : RE
  description : Str

/-- `SENSITIVE_PATTERNS`, in source (dict-insertion) order. -/
def SENSITIVE_PATTERNS : List SPat :=
  [⟨stos "ip_non_rfc1918", ip_non_rfc1918_re, stos "Non-RFC 1918 IP address"⟩,
   ⟨stos "mac_address", mac_address_re, stos "MAC address"⟩,
   ⟨stos "serial_number", serial_number_re, stos "Device serial number"⟩,
   ⟨stos "password", password_re, stos "Hardcoded password"⟩,
   ⟨stos "meraki_id", meraki_id_re, stos "Potential Meraki device ID"⟩,
   ⟨stos "hostname_dns", hostname_dns_re, stos "DNS hostname or domain"⟩,
   ⟨stos "api_key_pattern", api_key_pattern_re, stos "Potential API key or token"⟩,
   ⟨stos "ssh_key", ssh_key_re, stos "Private SSH key"⟩,
   ⟨stos "username_pattern", username_pattern_re, stos "Potential username assignment"⟩]

/-- The sub-alternation `(?:1[6-9]|2[0-9]|3[01])` of the RFC1918 172 range. -/
def oct172RE : RE :=
  ralts [rcat [.chr '1', .cls (inRange '6' '9')],
         rcat [.chr '2', dchar],
         rcat [.chr '3', .cls (fun c => c == '0' || c == '1')]]

/-- `APPROVED_ANON` entry `(?:10|172\.(?:1[6-9]|2[0-9]|3[01])|192\.168)\.`. -/
def rfc1918_allow_re : RE :=
  rcat [ralts [rstr "10", rcat [rstr "172.", oct172RE], rstr "192.168"],
        .chr '.']

/-- `APPROVED_ANON` entry `\d+\.\d+\.\d+\.\d+\.example`. -/
def ip_example_re : RE :=
  rcat [rplus dchar, .chr '.', rplus dchar, .chr '.', rplus dchar, .chr '.',
        rplus dchar, rstr ".example"]

/-- `APPROVED_ANON` entry `ABC\d{4,}`. -/
def abc_serial_re : RE := rcat [rstr "ABC", rrepGE dchar 4]

/-- `APPROVED_ANON` entry `https?://`. -/
def https_re : RE := rcat [rstr "http", ropt (.chr 's'), rstr "://"]

/-- `APPROVED_ANON` entry for GitHub templated secrets. -/
def gh_secret_re : RE :=
  rcat [.chr '$', .chr lbc, .chr lbc, rplus (.cls (fun c => c != rbc)),
        .chr rbc, .chr rbc]

/-- `APPROVED_ANON` entry for a literal quoted write token. -/
def token_write_re : RE :=
  rcat [rstr "token:", rstar schar, .chr sqc, rstr "write", .chr sqc]

/-- `APPROVED_ANON` entry for a templated api key value. -/
def api_key_templ_re : RE :=
  rcat [rstr "api_key:", rstar schar, .chr sqc, .chr '$', .chr lbc, .chr lbc]

/-- `APPROVED_ANON` entry for a templated TOKEN value. -/
def token_templ_re : RE :=
  rcat [rstr "TOKEN:", rstar schar, .chr sqc, .chr '$', .chr lbc, .chr lbc]

/-- `APPROVED_ANON` entry for a password prompt string. -/
def password_prompt_re : RE := rcat [rstr "Password:", rstar schar, .chr dqc]

/-- `APPROVED_ANON` entry for a password prompt string in code. -/
def password_prompt_paren_re : RE :=
  rcat [rstr "Password:", rstar schar, .chr dqc, .chr ')']

/-- `APPROVED_ANON` code example marker for passwords. -/
def password_marker_re : RE := rcat [rstr "password=", .chr btc, .chr ',']

/-- `APPROVED_ANON` code example marker for secrets. -/
def secret_marker_re : RE := rcat [rstr "secret=", .chr btc, .chr ',']

/-- `APPROVED_ANON` entry `\d{8}-\d{6}-[a-z0-9\-]+` (timestamped names). -/
def timestamped_re : RE :=
  rcat [rrep dchar 8, .chr '-', rrep dchar 6, .chr '-', rplus labelCls]

/-- `APPROVED_ANON` entry `(?i)device-\d+`. -/
def device_name_re : RE := rcat [rstr "device-", rplus dchar]

/-- `APPROVED_ANON` entry `(?i)ap-[\w\-]+`. -/
def ap_name_re : RE :=
  rcat [rstr "ap-", rplus (.cls (fun c => isWordChar c || c == '-'))]

/-- `APPROVED_ANON` entry `(?i)wlc-\d+`. -/
def wlc_name_re : RE := rcat [rstr "wlc-", rplus dchar]

/-- `APPROVED_ANON`, in source order.  Each entry carries the inline
`(?i)` flag (true only for the three device-naming patterns). -/
def APPROVED_ANON : List (Bool × RE) :=
  [(false, rstr "192.168.X.Y"),
   (false, rstr "10.0.0.X"),
   (false, rfc1918_allow_re),
   (false, ip_example_re),
   (false, rstr "8.8.8.8"),
   (false, rstr "1.1.1.1"),
   (false, rstr "203.0.113."),
   (false, rstr "198.51.100."),
   (false, rstr "XX:XX:XX:XX:XX:XX"),
   (false, rstr "xx:xx:xx:xx:xx:xx"),
   (false, rstr "00:11:22:33:44:55"),
   (false, abc_serial_re),
   (false, rstr "FOC123456789"),
   (false, rstr "FOC12345678"),
   (false, https_re),
   (false, rstr "example.com"),
   (false, rstr "test.com"),
   (false, rstr "localhost"),
   (false, gh_secret_re),
   (false, token_write_re),
   (false, api_key_templ_re),
   (false, token_templ_re),
   (false, rstr "github.com"),
   (false, rstr "ghcr.io"),
   (false, rstr "python-poetry.org"),
   (false, rstr "pdm-project.org"),
   (false, rstr "abstra.io"),
   (false, rstr "docs.cursor.com"),
   (false, rstr "your_username"),
   (false, rstr "your_password"),
   (false, rstr "your_enable_secret"),
   (false, password_prompt_re),
   (false, password_prompt_paren_re),
   (false, rstr "PASSWORD=your_password"),
   (false, rstr "SECRET=your_enable_secret"),
   (false, rstr "PASSWORD=AnotherSecret"),
   (false, rstr "PASSWORD=your_enable_password"),
   (false, rstr "USER=admin"),
   (false, rstr "USER=admin_user"),
   (false, rstr "pre-commit.com"),
   (false, rstr "internal.myco.com"),
   (false, password_marker_re),
   (false, secret_marker_re),
   (false, timestamped_re),
   (true, device_name_re),
   (true, ap_name_re),
   (true, wlc_name_re)]

/-- `FORBIDDEN_IN_EXAMPLES["public_ip"]`: the dotted-quad core followed by
`(?!(?:\.X\.Y|\.example))(?!\s)` and the negative lookahead on private
prefixes. -/
def public_ip_re : RE :=
  rcat [ipQuadRE,
        .nla (ralts [rstr ".X.Y", rstr ".example"]),
        .nla (.cls Char.isWhitespace),
        .nla (ralts [rstr "10.", rstr "192.168.",
                     rcat [rstr "172.", oct172RE, .chr '.']])]

/-- `FORBIDDEN_IN_EXAMPLES["real_mac"]`:
`(?<![xX:])(?:[0-9a-f]{2}[:\-]){5}(?:[0-9a-f]{2})(?![xXx])`. -/
def real_mac_re : RE :=
  rcat [.nlb (fun c => c == 'x' || c == 'X' || c == ':'),
        mac_address_re,
        .nla (.cls (fun c => c == 'x' || c == 'X'))]

/-- `FORBIDDEN_IN_EXAMPLES`, in source (dict-insertion) order. -/
def FORBIDDEN_IN_EXAMPLES : List SPat :=
  [⟨stos "public_ip", public_ip_re,
    stos "Public IP address (examples should use RFC1918 or 192.168.X.Y)"⟩,
   ⟨stos "real_mac", real_mac_re,
    stos "Real MAC address (use XX:XX:XX:XX:XX:XX)"⟩]

/-- `SKIP_FILES` from `security_patterns.py`. -/
def SKIP_FILES : List Str :=
  [stos "security_index.py", stos "security_patterns.py",
   stos "check_sensitive_data.py", stos "validate_examples.py",
   stos "security_scan.py", stos ".secrets.baseline",
   stos ".pre-commit-config.yaml"]

/-! Allow-rule matching, shared by the three scripts.  Each script iterates
the `APPROVED_ANON` set and calls `re.search`; membership is an "any match"
test (Python set iteration order does not affect the boolean).  The rule set
is passed explicitly so that behaviour under a different (e.g. empty) rule
set can be stated; the source scripts always use `APPROVED_ANON`. -/

/-- Does any allow rule match `t`?  `ci` is the flag the calling script
passes to `re.search`; an inline `(?i)` on the rule also forces
case-insensitive matching. -/
def anyApproved (ci : Bool) (rules : List (Bool × RE)) (t : Str) : Bool :=
  rules.any (fun e => re_search (e.1 || ci) e.2 t)

/-- `check_sensitive_data.is_whitelisted` with an explicit rule set
(the script searches with `re.IGNORECASE`). -/
def is_whitelisted_with (rules : List (Bool × RE)) (text : Str) : Bool :=
  anyApproved true rules text

/-- `check_sensitive_data.is_whitelisted(text, pattern)`; the `pattern`
argument is unused in the source. -/
def is_whitelisted (text _pat : Str) : Bool :=
  is_whitelisted_with APPROVED_ANON text

/-- `security_scan.is_approved_anonymized` (searches with `re.IGNORECASE`). -/
def is_approved_anonymized (text : Str) : Bool :=
  anyApproved true APPROVED_ANON text

/-- `validate_examples.is_approved_anonymization` (searches with no flags,
so only rules with an inline `(?i)` are case-insensitive). -/
def is_approved_anonymization (text : Str) : Bool :=
  anyApproved false APPROVED_ANON text

/-! `security_scan.is_rfc1918`. -/

/-- Python `str.split(sep)` for a single-character separator. -/
def splitChar (sep : Char) : Str → List Str
  | [] => [[]]
  | c :: rest =>
    if c == sep then [] :: splitChar sep rest
    else
      match splitChar sep rest with
      | [] => [[c]]
      | g :: gs => (c :: g) :: gs

/-- Python `int(s)` restricted to the decimal digit strings this code
feeds it (the parts of a matched dotted quad); any other string raises
`ValueError`, modelled as `none`. -/
def parseNat (s : Str) : Option Nat :=
  if s.isEmpty then none
  else if s.all Char.isDigit then
    some (s.foldl (fun n c => n * 10 + (c.toNat - 48)) 0)
  else none

/-- `security_scan.is_rfc1918(ip)`: split on dots, require four parts,
parse the first two octets, and test
10/8, 172.16/12 (second octet 16..31), 192.168/16. -/
def is_rfc1918 (ip : Str) : Bool :=
  let parts := splitChar '.' ip
  if parts.length == 4 then
    match parseNat (parts.getD 0 []), parseNat (parts.getD 1 []) with
    | some o1, some o2 =>
      o1 == 10 || (o1 == 172 && decide (16 ≤ o2) && decide (o2 ≤ 31)) ||
        (o1 == 192 && o2 == 168)
    | _, _ => false
  else false

/-! `check_sensitive_data.check_file`. -/

/-- One reported issue of `check_file`: the 1-based line, the category
description, the matched text truncated to 60 characters, and whether the
ellipsis marker was appended. -/
structure Issue where
  line : Nat
  description : Str
  shown : Str
  ell : Bool
deriving DecidableEq

/-- Line number of a match: newlines before the match start, plus one. -/
def lineAt (content : Str) (pos : Nat) : Nat :=
  (content.take pos).count nlc + 1

/-- Build the issue `check_file` records for a match. -/
def mkIssue (content descr : Str) (m : Nat × Str) : Issue :=
  ⟨lineAt content m.1, descr, m.2.take 60, decide (60 < m.2.length)⟩

/-- The inner loop of `check_file` over the matches of one pattern:
skip whitelisted matches, record an issue for the rest. -/
def check_matches (rules : List (Bool × RE)) (content descr : Str) :
    List (Nat × Str) → List Issue
  | [] => []
  | m :: ms =>
    if is_whitelisted_with rules m.2 then check_matches rules content descr ms
    else mkIssue content descr m :: check_matches rules content descr ms

/-- The outer loop of `check_file` over the pattern catalog
(`re.finditer` with `re.IGNORECASE | re.MULTILINE`). -/
def check_loop (rules : List (Bool × RE)) (content : Str) :
    List SPat → List Issue
  | [] => []
  | p :: ps =>
    check_matches rules content p.description (re_finditer true p.re content)
      ++ check_loop rules content ps

/-- The binary-file suffixes skipped by `check_file`. -/
def binary_suffixes : List Str :=
  [stos ".png", stos ".jpg", stos ".jpeg", stos ".gif", stos ".pyc",
   stos ".o", stos ".so"]

/-- `check_file` with an explicit allow-rule set.  The file is given by its
basename (`path.name`), extension (`path.suffix`) and content; a file whose
content cannot be read or decoded is an `Except.error` carrying the
exception text.  Returns `(is_clean, issues)`. -/
def check_file_with (rules : List (Bool × RE)) (fname sfx : Str)
    (content : Except Str Str) : Bool × List Issue :=
  if fname ∈ SKIP_FILES then (true, [])
  else if sfx ∈ binary_suffixes then (true, [])
  else
    match content with
    | .error _ => (true, [])
    | .ok c =>
      let issues := check_loop rules c SENSITIVE_PATTERNS
      (issues.isEmpty, issues)

/-- `check_sensitive_data.check_file` (with the shipped catalog). -/
def check_file (fname sfx : Str) (content : Except Str Str) :
    Bool × List Issue :=
  check_file_with APPROVED_ANON fname sfx content

/-! `security_scan.scan_file`. -/

/-- One finding of `scan_file`: the dict
`{line, type: description, text: matched[:60], check: name}`. -/
structure SFinding where
  line : Nat
  type : Str
  text : Str
  check : Str
deriving DecidableEq

/-- `scan_file`'s result dict. -/
structure ScanResults where
  findings : List SFinding
  warnings : List Str
  path : Str
  gitignored : Bool
deriving DecidableEq

/-- `security_scan.is_gitignored`: runs `git check-ignore` and reports
whether its return code is 0; if the invocation raises, returns `False`
(fail open).  The invocation outcome is a parameter:
`Except.ok b` is a completed call with `b = (returncode == 0)`,
`Except.error u` a raised exception. -/
def is_gitignored (res : Except Unit Bool) : Bool :=
  match res with
  | .ok b => b
  | .error _ => false

/-- The inner loop of `scan_file` over the matches of one pattern: skip
approved-anonymized matches, skip RFC1918 addresses for the IP category,
record a finding for the rest. -/
def scan_matches (rules : List (Bool × RE)) (content : Str) (p : SPat) :
    List (Nat × Str) → List SFinding
  | [] => []
  | m :: ms =>
    if anyApproved true rules m.2 then scan_matches rules content p ms
    else if p.name == stos "ip_non_rfc1918" && is_rfc1918 m.2 then
      scan_matches rules content p ms
    else
      ⟨lineAt content m.1, p.description, m.2.take 60, p.name⟩
        :: scan_matches rules content p ms

/-- The outer loop of `scan_file` over the pattern catalog. -/
def scan_loop (rules : List (Bool × RE)) (content : Str) :
    List SPat → List SFinding
  | [] => []
  | p :: ps =>
    scan_matches rules content p (re_finditer true p.re content)
      ++ scan_loop rules content ps

/-- `scan_file` with an explicit allow-rule set.  `ex` models
`filepath.exists()`, `hasRoot` whether a `repo_root` was passed, `ignoreRes`
the outcome of the `git check-ignore` call, and `content` the read outcome
(`Except.error` carries the exception text). -/
def scan_file_with (rules : List (Bool × RE)) (ex : Bool) (name path : Str)
    (hasRoot : Bool) (ignoreRes : Except Unit Bool)
    (content : Except Str Str) : ScanResults :=
  let base : ScanResults := ⟨[], [], path, false⟩
  if !ex then base
  else if name ∈ SKIP_FILES then base
  else
    let g := hasRoot && is_gitignored ignoreRes
    match content with
    | .error e =>
      { base with gitignored := g, warnings := [stos "Could not read: " ++ e] }
    | .ok c =>
      { base with gitignored := g,
                  findings := scan_loop rules c SENSITIVE_PATTERNS }

/-- `security_scan.scan_file` (with the shipped catalog). -/
def scan_file (ex : Bool) (name path : Str) (hasRoot : Bool)
    (ignoreRes : Except Unit Bool) (content : Except Str Str) : ScanResults :=
  scan_file_with APPROVED_ANON ex name path hasRoot ignoreRes content

/-! `validate_examples.validate_file`. -/

/-- One issue of `validate_file`: the 1-based line, the category
description, and the full matched text (`validate_file` does not
truncate). -/
structure VIssue where
  line : Nat
  description : Str
  found : Str
deriving DecidableEq

/-- The inner loop of `validate_file`: skip matches already in an approved
anonymized format, record an issue for the rest. -/
def validate_matches (content descr : Str) :
    List (Nat × Str) → List VIssue
  | [] => []
  | m :: ms =>
    if is_approved_anonymization m.2 then validate_matches content descr ms
    else ⟨lineAt content m.1, descr, m.2⟩ :: validate_matches content descr ms

/-- The outer loop of `validate_file` over `FORBIDDEN_IN_EXAMPLES`
(`re.finditer` with `re.IGNORECASE`). -/
def validate_loop (content : Str) : List SPat → List VIssue
  | [] => []
  | p :: ps =>
    validate_matches content p.description (re_finditer true p.re content)
      ++ validate_loop content ps

/-- `validate_examples.validate_file`: a read failure is reported as
invalid with a "Could not read file" issue; otherwise the forbidden
patterns are scanned.  Returns `(is_valid, issues)` with issues abstracted
to `VIssue`; the read-error branch yields the error message string. -/
def validate_file (content : Except Str Str) : Bool × List VIssue :=
  match content with
  | .error e => (false, [⟨0, stos "Could not read file: " ++ e, []⟩])
  | .ok c =>
    let issues := validate_loop c FORBIDDEN_IN_EXAMPLES
    (issues.isEmpty, issues)

/-! The `main` of `security_scan.py`. -/

/-- One filesystem entry seen by `main`'s `rglob` walk. -/
structure FileEntry where
  parts : List Str
  name : Str
  isDir : Bool
  ex : Bool
  ignoreRes : Except Unit Bool
  content : Except Str Str

/-- The directory names `main` skips outright. -/
def skip_dirs : List Str :=
  [stos ".git", stos "__pycache__", stos ".venv", stos "venv",
   stos "node_modules", stos ".pytest_cache"]

/-- The walk of `security_scan.main` over the entries, returning
`(all_clean, total_findings, scanned_count, skipped_count)`. -/
def mainLoop : List FileEntry → Bool × Nat × Nat × Nat
  | [] => (true, 0, 0, 0)
  | e :: fs =>
    if e.isDir || e.parts.any (fun p => p ∈ skip_dirs) then mainLoop fs
    else if is_gitignored e.ignoreRes then
      let r := mainLoop fs
      (r.1, r.2.1, r.2.2.1, r.2.2.2 + 1)
    else
      let res := scan_file e.ex e.name e.name true e.ignoreRes e.content
      let r := mainLoop fs
      (res.findings.isEmpty && r.1, res.findings.length + r.2.1,
       r.2.2.1 + 1, r.2.2.2)

/-- `security_scan.main`'s exit code: 0 when every scanned file was clean,
1 otherwise. -/
def securityScanMain (files : List FileEntry) : Nat :=
  if (mainLoop files).1 then 0 else 1

/-- Is a walk entry tracked: a file, not inside a skipped tooling
directory, and not excluded by the ignore predicate? -/
def tracked (e : FileEntry) : Bool :=
  !e.isDir && !(e.parts.any (fun p => p ∈ skip_dirs)) &&
    !(is_gitignored e.ignoreRes)

/-- Total findings among tracked entries. -/
def trackedFindings : List FileEntry → Nat
  | [] => 0
  | e :: fs =>
    (if tracked e then
        (scan_file e.ex e.name e.name true e.ignoreRes e.content).findings.length
      else 0) + trackedFindings fs

/-! Helper lemmas about the matcher. -/

/-- Patterns built only from literals, classes, concatenation and
alternation (no repetition or lookaround). -/
def plain : RE → Bool
  | .eps => true
  | .chr _ => true
  | .cls _ => true
  | .seq a b => plain a && plain b
  | .alt a b => plain a && plain b
  | .rep _ _ _ => false
  | .nla _ => false
  | .pla _ => false
  | .nlb _ => false
  | .wb => false

/-- For a `plain` pattern, a successful match attempt stays successful
when the fuel grows, the input is extended on the right, the preceding
character changes, and the continuation becomes (pointwise, modulo the
extension) more permissive. -/
theorem mrun_plain_isSome_mono (ci : Bool) :
    ∀ (fuel : Nat) (re : RE) (prev : Option Char) (s : Str) (k₁ : Cont)
      (fuel' : Nat) (prev' : Option Char) (ext : Str) (k₂ : Cont),
      plain re = true → fuel ≤ fuel' →
      (∀ pa a, (k₁ pa a).isSome = true → ∀ pb, (k₂ pb (a ++ ext)).isSome = true) →
      (mrun ci fuel re prev s k₁).isSome = true →
      (mrun ci fuel' re prev' (s ++ ext) k₂).isSome = true := by
  intro fuel
  induction fuel with
  | zero =>
    intro re prev s k₁ fuel' prev' ext k₂ _ _ _ h
    simp [mrun] at h
  | succ f ih =>
    intro re prev s k₁ fuel' prev' ext k₂ hre hle hk h
    obtain ⟨f', rfl⟩ : ∃ f', fuel' = f' + 1 := ⟨fuel' - 1, by omega⟩
    have hff : f ≤ f' := by omega
    cases re with
    | eps =>
      simp only [mrun] at h ⊢
      exact hk prev s h prev'
    | chr c =>
      cases s with
      | nil => simp [mrun] at h
      | cons a rest =>
        simp only [mrun, List.cons_append] at h ⊢
        cases hc : cmatch ci a c with
        | true =>
          simp only [hc, if_true] at h ⊢
          exact hk (some a) rest h (some a)
        | false => simp [hc] at h
    | cls p =>
      cases s with
      | nil => simp [mrun] at h
      | cons a rest =>
        simp only [mrun, List.cons_append] at h ⊢
        cases hc : clsmatch ci p a with
        | true =>
          simp only [hc, if_true] at h ⊢
          exact hk (some a) rest h (some a)
        | false => simp [hc] at h
    | seq r1 r2 =>
      simp only [plain, Bool.and_eq_true] at hre
      simp only [mrun] at h ⊢
      exact ih r1 prev s _ f' prev' ext _ hre.1 hff
        (fun pa a hka pb => ih r2 pa a k₁ f' pb ext k₂ hre.2 hff hk hka) h
    | alt r1 r2 =>
      simp only [plain, Bool.and_eq_true] at hre
      simp only [mrun] at h ⊢
      cases h1 : mrun ci f r1 prev s k₁ with
      | some v =>
        have h2 := ih r1 prev s k₁ f' prev' ext k₂ hre.1 hff hk (by rw [h1]; rfl)
        cases h3 : mrun ci f' r1 prev' (s ++ ext) k₂ with
        | some w => simp
        | none => rw [h3] at h2; simp at h2
      | none =>
        rw [h1] at h
        have h2 := ih r2 prev s k₁ f' prev' ext k₂ hre.2 hff hk h
        cases h3 : mrun ci f' r1 prev' (s ++ ext) k₂ with
        | some w => simp
        | none => simpa using h2
    | rep r lo hi => simp [plain] at hre
    | nla r => simp [plain] at hre
    | pla r => simp [plain] at hre
    | nlb p => simp [plain] at hre
    | wb => simp [plain] at hre

/-- If a `plain` pattern matches at the start of `t` (with some fuel below
`mf`), then `re.search` over any string having `t` as a suffix succeeds. -/
theorem searchGo_suffix (ci : Bool) (re : RE) (mf : Nat) (t : Str)
    (H : ∀ prev, (mtop ci mf re prev t).isSome = true) :
    ∀ (l : Str) (g : Nat) (prev : Option Char),
      l.length < g → searchGo ci re mf g prev (l ++ t) = true := by
  intro l
  induction l with
  | nil =>
    intro g prev hg
    obtain ⟨g', rfl⟩ : ∃ g', g = g' + 1 := ⟨g - 1, by omega⟩
    simp [searchGo, H prev]
  | cons c l' ih =>
    intro g prev hg
    obtain ⟨g', rfl⟩ : ∃ g', g = g' + 1 := ⟨g - 1, by omega⟩
    have : searchGo ci re mf g' (some c) (l' ++ t) = true :=
      ih g' (some c) (by simpa using Nat.lt_of_succ_lt_succ hg)
    simp [searchGo, this]

/-- `re.search` succeeds on `l ++ p ++ r` whenever the `plain` pattern
matches at the start of `p` with some fixed fuel `f0 ≤ 100`. -/
theorem re_search_of_parts (ci : Bool) (re : RE) (f0 : Nat) (l p r : Str)
    (hplain : plain re = true) (hf0 : f0 ≤ 100)
    (hbase : (mtop ci f0 re none p).isSome = true) :
    re_search ci re (l ++ (p ++ r)) = true := by
  have hmf : f0 ≤ mfuel (l ++ (p ++ r)) := by
    unfold mfuel; omega
  have hext : ∀ prev,
      (mtop ci (mfuel (l ++ (p ++ r))) re prev (p ++ r)).isSome = true := by
    intro prev
    exact mrun_plain_isSome_mono ci f0 re none p _ _ prev r _ hplain hmf
      (fun _ _ _ _ => rfl) hbase
  unfold re_search
  exact searchGo_suffix ci re _ (p ++ r) hext l _ none
    (by simp [List.length_append]; omega)

/-- If one rule of the set matches, the any-rule test succeeds. -/
theorem anyApproved_of_mem (ci : Bool) (rules : List (Bool × RE))
    (e : Bool × RE) (t : Str) (hmem : e ∈ rules)
    (hs : re_search (e.1 || ci) e.2 t = true) :
    anyApproved ci rules t = true :=
  List.any_eq_true.mpr ⟨e, hmem, hs⟩

/-! Characterizations of the per-match loops as filter-then-map. -/

/-- `check_file`'s inner loop emits exactly the non-whitelisted matches,
in order. -/
theorem check_matches_eq (rules : List (Bool × RE)) (content descr : Str) :
    ∀ ms : List (Nat × Str),
      check_matches rules content descr ms =
        (ms.filter (fun m => !is_whitelisted_with rules m.2)).map
          (mkIssue content descr) := by
  intro ms
  induction ms with
  | nil => rfl
  | cons m ms ih =>
    cases hw : is_whitelisted_with rules m.2 with
    | true => simp [check_matches, hw, List.filter_cons, ih]
    | false => simp [check_matches, hw, List.filter_cons, ih]

/-- The condition under which `scan_file` keeps a match: not
approved-anonymized, and not an RFC1918-private address of the IP
category.  The second conjunct is a numeric test, not a regex rule. -/
def scan_keep (rules : List (Bool × RE)) (p : SPat) (m : Nat × Str) : Bool :=
  !anyApproved true rules m.2 &&
    !(p.name == stos "ip_non_rfc1918" && is_rfc1918 m.2)

/-- `scan_file`'s inner loop emits exactly the matches that are neither
approved-anonymized nor (for the IP category) RFC1918-private, in order. -/
theorem scan_matches_eq (rules : List (Bool × RE)) (content : Str) (p : SPat) :
    ∀ ms : List (Nat × Str),
      scan_matches rules content p ms =
        (ms.filter (scan_keep rules p)).map
          (fun m => ⟨lineAt content m.1, p.description, m.2.take 60, p.name⟩) := by
  intro ms
  induction ms with
  | nil => rfl
  | cons m ms ih =>
    cases ha : anyApproved true rules m.2 with
    | true =>
      have hkeep : scan_keep rules p m = false := by
        simp [scan_keep, ha]
      rw [List.filter_cons, hkeep]
      simpa [scan_matches, ha] using ih
    | false =>
      cases hr : p.name == stos "ip_non_rfc1918" && is_rfc1918 m.2 with
      | true =>
        have hkeep : scan_keep rules p m = false := by
          simp [scan_keep, ha, hr]
        rw [List.filter_cons, hkeep]
        simpa [scan_matches, ha, hr] using ih
      | false =>
        have hkeep : scan_keep rules p m = true := by
          simp [scan_keep, ha, hr]
        rw [List.filter_cons, hkeep]
        simpa [scan_matches, ha, hr] using ih

/-- `validate_file`'s inner loop emits exactly the matches that are not
in an approved anonymized format, in order. -/
theorem validate_matches_eq (content descr : Str) :
    ∀ ms : List (Nat × Str),
      validate_matches content descr ms =
        (ms.filter (fun m => !is_approved_anonymization m.2)).map
          (fun m => ⟨lineAt content m.1, descr, m.2⟩) := by
  intro ms
  induction ms with
  | nil => rfl
  | cons m ms ih =>
    cases ha : is_approved_anonymization m.2 with
    | true => simp [validate_matches, ha, List.filter_cons, ih]
    | false => simp [validate_matches, ha, List.filter_cons, ih]

/-- The outer loop of `check_file` concatenates the per-pattern issue
lists in catalog order. -/
theorem check_loop_eq (rules : List (Bool × RE)) (content : Str) :
    ∀ ps : List SPat,
      check_loop rules content ps =
        ps.flatMap (fun p =>
          check_matches rules content p.description
            (re_finditer true p.re content)) := by
  intro ps
  induction ps with
  | nil => rfl
  | cons p ps ih => simp [check_loop, ih, List.flatMap]

/-- The outer loop of `scan_file` concatenates the per-pattern finding
lists in catalog order. -/
theorem scan_loop_eq (rules : List (Bool × RE)) (content : Str) :
    ∀ ps : List SPat,
      scan_loop rules content ps =
        ps.flatMap (fun p =>
          scan_matches rules content p (re_finditer true p.re content)) := by
  intro ps
  induction ps with
  | nil => rfl
  | cons p ps ih => simp [scan_loop, ih, List.flatMap]

/-! Ordering of the matches produced by `re.finditer`. -/

/-- Every match the scan produces starts at or after the scan position. -/
theorem finditerGo_ge (ci : Bool) (re : RE) (mf : Nat) :
    ∀ (g : Nat) (prev : Option Char) (s : Str) (pos : Nat)
      (q : Nat × Str), q ∈ finditerGo ci re mf g prev s pos → pos ≤ q.1 := by
  intro g
  induction g with
  | zero => intro prev s pos q hq; simp [finditerGo] at hq
  | succ g ih =>
    intro prev s pos q hq
    cases s with
    | nil =>
      rw [finditerGo] at hq
      cases hm : mtop ci mf re prev [] with
      | some rest =>
        rw [hm] at hq
        simp only [Option.elim, List.mem_singleton] at hq
        subst hq; exact Nat.le_refl _
      | none =>
        rw [hm] at hq
        simp [Option.elim] at hq
    | cons c tail =>
      rw [finditerGo] at hq
      cases hm : mtop ci mf re prev (c :: tail) with
      | none =>
        rw [hm] at hq
        simp only [Option.elim] at hq
        exact Nat.le_of_succ_le (ih (some c) tail (pos + 1) q hq)
      | some rest =>
        rw [hm] at hq
        simp only [Option.elim] at hq
        by_cases hd : (c :: tail).length - rest.length = 0
        · rw [if_pos hd] at hq
          rcases List.mem_cons.mp hq with hq | hq
          · subst hq; exact Nat.le_refl _
          · exact Nat.le_of_succ_le (ih (some c) tail (pos + 1) q hq)
        · rw [if_neg hd] at hq
          rcases List.mem_cons.mp hq with hq | hq
          · subst hq; exact Nat.le_refl _
          · have := ih _ rest (pos + ((c :: tail).length - rest.length)) q hq
            omega

/-- The matches produced by the scan have strictly increasing start
positions. -/
theorem finditerGo_pairwise (ci : Bool) (re : RE) (mf : Nat) :
    ∀ (g : Nat) (prev : Option Char) (s : Str) (pos : Nat),
      List.Pairwise (fun a b : Nat × Str => a.1 < b.1)
        (finditerGo ci re mf g prev s pos) := by
  intro g
  induction g with
  | zero => intro prev s pos; simp [finditerGo]
  | succ g ih =>
    intro prev s pos
    cases s with
    | nil =>
      rw [finditerGo]
      cases hm : mtop ci mf re prev [] with
      | some rest => simp [Option.elim]
      | none => simp [Option.elim]
    | cons c tail =>
      rw [finditerGo]
      cases hm : mtop ci mf re prev (c :: tail) with
      | none =>
        simp only [Option.elim]
        exact ih (some c) tail (pos + 1)
      | some rest =>
        simp only [Option.elim]
        by_cases hd : (c :: tail).length - rest.length = 0
        · rw [if_pos hd]
          refine List.Pairwise.cons ?_ (ih (some c) tail (pos + 1))
          intro q hq
          have := finditerGo_ge ci re mf g (some c) tail (pos + 1) q hq
          omega
        · rw [if_neg hd]
          refine List.Pairwise.cons ?_
            (ih _ rest (pos + ((c :: tail).length - rest.length)))
          intro q hq
          have := finditerGo_ge ci re mf g _ rest
            (pos + ((c :: tail).length - rest.length)) q hq
          omega

/-- The start positions of `re.finditer` are strictly increasing. -/
theorem re_finditer_pairwise (ci : Bool) (re : RE) (s : Str) :
    List.Pairwise (fun a b : Nat × Str => a.1 < b.1) (re_finditer ci re s) :=
  finditerGo_pairwise ci re (mfuel s) (s.length + 1) none s 0

/-- Line numbers are monotone in the match start position. -/
theorem lineAt_mono (content : Str) (p q : Nat) (h : p ≤ q) :
    lineAt content p ≤ lineAt content q := by
  unfold lineAt
  have h1 : content.take p = (content.take q).take p := by
    rw [List.take_take, Nat.min_eq_left h]
  rw [h1]
  exact Nat.add_le_add_right
    ((List.take_sublist p (content.take q)).count_le nlc) 1

/-! Splitting dotted quads: lemmas about `splitChar` and `parseNat`. -/

/-- Splitting a string with no separator yields the one-element list. -/
theorem splitChar_no_sep (sep : Char) :
    ∀ z : Str, z.all (fun c => !(c == sep)) = true → splitChar sep z = [z] := by
  intro z
  induction z with
  | nil => intro _; rfl
  | cons c rest ih =>
    intro h
    simp only [List.all_cons, Bool.and_eq_true] at h
    have hc : (c == sep) = false := by
      cases hcc : c == sep
      · rfl
      · rw [hcc] at h; simp at h
    rw [splitChar, if_neg (by simp [hc]), ih h.2]

/-- Splitting past a separator-free prefix peels it off as one part. -/
theorem splitChar_append (sep : Char) :
    ∀ (w r : Str), w.all (fun c => !(c == sep)) = true →
      splitChar sep (w ++ sep :: r) = w :: splitChar sep r := by
  intro w
  induction w with
  | nil =>
    intro r _
    simp [splitChar]
  | cons c w' ih =>
    intro r h
    simp only [List.all_cons, Bool.and_eq_true] at h
    have hc : (c == sep) = false := by
      cases hcc : c == sep
      · rfl
      · rw [hcc] at h; simp at h
    rw [List.cons_append, splitChar, if_neg (by simp [hc]), ih r h.2]

/-- A successfully parsed string is a nonempty digit string. -/
theorem parseNat_digits (s : Str) (a : Nat) (h : parseNat s = some a) :
    s ≠ [] ∧ s.all Char.isDigit = true := by
  unfold parseNat at h
  by_cases h1 : s.isEmpty
  · rw [if_pos h1] at h; simp at h
  · rw [if_neg h1] at h
    by_cases h2 : s.all Char.isDigit
    · exact ⟨by simpa using h1, h2⟩
    · rw [if_neg h2] at h; simp at h

/-- A decimal digit is not a dot. -/
theorem isDigit_ne_dot (c : Char) (h : c.isDigit = true) : (c == '.') = false := by
  cases hc : c == '.'
  · rfl
  · have hcc : c = '.' := by simpa using hc
    subst hcc
    exact absurd h (by decide)

/-- A digit string contains no dots. -/
theorem all_digit_no_dot (s : Str) (h : s.all Char.isDigit = true) :
    s.all (fun c => !(c == '.')) = true := by
  rw [List.all_eq_true] at h ⊢
  intro c hc
  simp [isDigit_ne_dot c (h c hc)]

/-- `is_rfc1918` accepts every textual dotted quad whose first octet parses
to 10, or to 172 with second octet in 16..31, or to 192 with second octet
168 — the private-address predicate of the spec. -/
theorem is_rfc1918_quad (w x y z : Str) (a b : Nat)
    (hw : parseNat w = some a) (hx : parseNat x = some b)
    (hy2 : y.all Char.isDigit = true)
    (hz2 : z.all Char.isDigit = true)
    (hpriv : a = 10 ∨ (a = 172 ∧ 16 ≤ b ∧ b ≤ 31) ∨ (a = 192 ∧ b = 168)) :
    is_rfc1918 (w ++ '.' :: (x ++ '.' :: (y ++ '.' :: z))) = true := by
  obtain ⟨hw1, hw2⟩ := parseNat_digits w a hw
  obtain ⟨hx1, hx2⟩ := parseNat_digits x b hx
  have e1 : splitChar '.' (w ++ '.' :: (x ++ '.' :: (y ++ '.' :: z)))
      = [w, x, y, z] := by
    rw [splitChar_append _ _ _ (all_digit_no_dot w hw2),
        splitChar_append _ _ _ (all_digit_no_dot x hx2),
        splitChar_append _ _ _ (all_digit_no_dot y hy2),
        splitChar_no_sep _ _ (all_digit_no_dot z hz2)]
  unfold is_rfc1918
  rw [e1]
  simp only [List.length_cons, List.length_nil, List.getD_cons_zero,
    List.getD_cons_succ]
  rw [if_pos (by rfl), hw, hx]
  rcases hpriv with h | ⟨h1, h2, h3⟩ | ⟨h1, h2⟩
  · subst h; simp
  · subst h1
    simp [decide_eq_true h2, decide_eq_true h3]
  · subst h1; subst h2; simp

/-! The overall pass/fail decision of `security_scan.main`. -/

/-- The walk is clean exactly when no tracked entry has findings. -/
theorem mainLoop_clean_iff : ∀ fs : List FileEntry,
    ((mainLoop fs).1 = true ↔ trackedFindings fs = 0) := by
  intro fs
  induction fs with
  | nil => simp [mainLoop, trackedFindings]
  | cons e fs ih =>
    by_cases h1 : (e.isDir || e.parts.any (fun p => p ∈ skip_dirs)) = true
    · have ht : tracked e = false := by
        rcases Bool.or_eq_true_iff.mp h1 with h | h <;> simp [tracked, h]
      rw [mainLoop, if_pos h1, trackedFindings, ht]
      simpa using ih
    · have h1' : (e.isDir || e.parts.any (fun p => p ∈ skip_dirs)) = false := by
        simpa using h1
      obtain ⟨hd, hp⟩ := Bool.or_eq_false_iff.mp h1'
      by_cases h2 : is_gitignored e.ignoreRes = true
      · have ht : tracked e = false := by simp [tracked, h2]
        rw [mainLoop, if_neg (by simp [h1']), if_pos h2, trackedFindings, ht]
        simpa using ih
      · have h2' : is_gitignored e.ignoreRes = false := by simpa using h2
        have ht : tracked e = true := by simp [tracked, hd, hp, h2']
        rw [mainLoop, if_neg (by simp [h1']), if_neg (by simp [h2']),
          trackedFindings, ht, if_pos rfl]
        simp only [Bool.and_eq_true, ih, List.isEmpty_iff, Nat.add_eq_zero,
          List.length_eq_zero]

/-! Claim theorems. -/

/-- C8: the repository scan's `main` exits with code 0 exactly when the
tracked files (not ignored, not inside a skipped tooling directory)
contribute zero findings; any finding in a tracked file forces exit
code 1. -/
theorem c8_exit_zero_iff_no_tracked_findings (files : List FileEntry) :
    securityScanMain files = 0 ↔ trackedFindings files = 0 := by
  unfold securityScanMain
  by_cases h : (mainLoop files).1 = true
  · simp [h, (mainLoop_clean_iff files).mp h]
  · have h' : (mainLoop files).1 = false := by simpa using h
    rw [h']
    simp only [if_false, Bool.false_eq_true]
    constructor
    · intro h10; exact absurd h10 (by omega)
    · intro htf
      exact absurd ((mainLoop_clean_iff files).mpr htf) (by simp [h'])

/-- C9: when the `git check-ignore` invocation raises, `is_gitignored`
fails open (returns false), so the walk treats the file exactly as a
non-ignored file: it is scanned and its findings count. -/
theorem c9_ignore_error_fails_open (fs : List FileEntry) (e : FileEntry)
    (u : Unit) :
    is_gitignored (Except.error u) = false
    ∧ mainLoop ({e with ignoreRes := Except.error u} :: fs) =
        mainLoop ({e with ignoreRes := Except.ok false} :: fs)
    ∧ securityScanMain ({e with ignoreRes := Except.error u} :: fs) =
        securityScanMain ({e with ignoreRes := Except.ok false} :: fs) := by
  refine ⟨rfl, ?_, ?_⟩
  · simp [mainLoop, scan_file, scan_file_with, is_gitignored]
  · simp [securityScanMain, mainLoop, scan_file, scan_file_with, is_gitignored]

/-- C2: for every allow-rule set, every content, and every category, a
match whose text satisfies an allow rule is suppressed: the issues of
`check_file`'s inner loop are exactly the non-whitelisted matches, and the
findings of `scan_file`'s inner loop are exactly the matches that pass the
allow-rule test (and, for the IP category only, the RFC1918 test) — so an
allow-rule match always wins, regardless of which pattern produced it. -/
theorem c2_allow_rule_wins (rules : List (Bool × RE)) (content : Str) :
    (∀ (descr : Str) (ms : List (Nat × Str)),
        check_matches rules content descr ms =
          (ms.filter (fun m => !is_whitelisted_with rules m.2)).map
            (mkIssue content descr))
    ∧ (∀ (p : SPat) (ms : List (Nat × Str)),
        scan_matches rules content p ms =
          (ms.filter (fun m => !anyApproved true rules m.2 &&
              !(p.name == stos "ip_non_rfc1918" && is_rfc1918 m.2))).map
            (fun m => ⟨lineAt content m.1, p.description, m.2.take 60, p.name⟩)) := by
  refine ⟨check_matches_eq rules content, fun p ms => ?_⟩
  rw [scan_matches_eq]
  rfl

/-- C5 counterexample: with a MAC address on line 1 and a public IP on
line 2, the scan result's findings list is `[line 2, line 1]` — the IP
category is iterated first — so the findings are not ordered primarily by
ascending line number. -/
theorem c5_counterexample :
    ((scan_file true (stos "doc.txt") (stos "doc.txt") true (Except.ok false)
        (Except.ok (stos "de:ad:be:ef:00:99" ++ nlc :: stos "41.2.3.4"))).findings.map
      SFinding.line) = [2, 1]
    ∧ ¬ List.Pairwise (fun a b : Nat => a ≤ b)
        ((scan_file true (stos "doc.txt") (stos "doc.txt") true (Except.ok false)
            (Except.ok (stos "de:ad:be:ef:00:99" ++ nlc :: stos "41.2.3.4"))).findings.map
          SFinding.line) := by
  have h : ((scan_file true (stos "doc.txt") (stos "doc.txt") true (Except.ok false)
      (Except.ok (stos "de:ad:be:ef:00:99" ++ nlc :: stos "41.2.3.4"))).findings.map
        SFinding.line) = [2, 1] := by decide
  refine ⟨h, ?_⟩
  rw [h]
  intro hp
  have := List.rel_of_pairwise_cons hp (List.mem_singleton_self 1)
  omega

/-- C5 amended: the findings of a scan are grouped by the catalog's
pattern iteration order (the outer loop), and within one pattern the line
numbers are non-decreasing (matches are enumerated left to right). -/
theorem c5_amended (rules : List (Bool × RE)) (content : Str) :
    scan_loop rules content SENSITIVE_PATTERNS =
      SENSITIVE_PATTERNS.flatMap (fun p =>
        scan_matches rules content p (re_finditer true p.re content))
    ∧ ∀ p : SPat,
        List.Pairwise (fun a b : Nat => a ≤ b)
          ((scan_matches rules content p (re_finditer true p.re content)).map
            SFinding.line) := by
  refine ⟨scan_loop_eq rules content SENSITIVE_PATTERNS, fun p => ?_⟩
  rw [scan_matches_eq, List.map_map, List.pairwise_map]
  have h1 : List.Pairwise (fun a b : Nat × Str => a.1 < b.1)
      ((re_finditer true p.re content).filter (scan_keep rules p)) :=
    List.Pairwise.sublist (List.filter_sublist _)
      (re_finditer_pairwise true p.re content)
  exact h1.imp (fun hab => lineAt_mono content _ _ (Nat.le_of_lt hab))

/-- C1 counterexample: with no matching allow rule (an empty rule set),
`check_file` does emit an IP finding for the private address `10.0.0.5` —
the pre-commit check has no numeric octet test, so its private-space
discard is not independent of the regex allow rules. -/
theorem c1_counterexample :
    check_file_with [] (stos "notes.txt") (stos ".txt")
        (Except.ok (stos "10.0.0.5")) =
      (false, [⟨1, stos "Non-RFC 1918 IP address", stos "10.0.0.5", false⟩]) := by
  decide

/-- C1 amended: `is_rfc1918` accepts every textual dotted quad in the
private ranges, and `scan_file`'s IP category discards such matches for
every allow-rule set (the numeric test is independent of the rules);
`check_file` with the shipped catalog also emits nothing for private
addresses, but only because the RFC1918 allow regex matches them. -/
theorem c1_amended (w x y z : Str) (a b : Nat)
    (hw : parseNat w = some a) (hx : parseNat x = some b)
    (hy : y.all Char.isDigit = true) (hz : z.all Char.isDigit = true)
    (hpriv : a = 10 ∨ (a = 172 ∧ 16 ≤ b ∧ b ≤ 31) ∨ (a = 192 ∧ b = 168)) :
    is_rfc1918 (w ++ '.' :: (x ++ '.' :: (y ++ '.' :: z))) = true
    ∧ (∀ (rules : List (Bool × RE)) (content : Str) (ms : List (Nat × Str)),
        scan_matches rules content
            ⟨stos "ip_non_rfc1918", ip_non_rfc1918_re,
              stos "Non-RFC 1918 IP address"⟩ ms =
          (ms.filter (fun m => !anyApproved true rules m.2 &&
              !is_rfc1918 m.2)).map
            (fun m => ⟨lineAt content m.1, stos "Non-RFC 1918 IP address",
              m.2.take 60, stos "ip_non_rfc1918"⟩))
    ∧ check_file (stos "notes.txt") (stos ".txt")
        (Except.ok (stos "10.0.0.5")) = (true, [])
    ∧ check_file (stos "notes.txt") (stos ".txt")
        (Except.ok (stos "172.16.0.1")) = (true, [])
    ∧ check_file (stos "notes.txt") (stos ".txt")
        (Except.ok (stos "192.168.1.1")) = (true, [])
    ∧ scan_file true (stos "notes.txt") (stos "notes.txt") true
        (Except.ok false) (Except.ok (stos "10.0.0.5")) =
      ⟨[], [], stos "notes.txt", false⟩ := by
  refine ⟨is_rfc1918_quad w x y z a b hw hx hy hz hpriv, ?_, by decide,
    by decide, by decide, by decide⟩
  intro rules content ms
  rw [scan_matches_eq]
  refine congrArg _ (List.filter_congr fun m _ => ?_)
  simp [scan_keep]

/-- C1 witness: the quad `10.0.0.5` instantiates the amended theorem. -/
theorem c1_amended_witness :
    parseNat (stos "10") = some 10 ∧
    is_rfc1918 (stos "10" ++ '.' :: (stos "0" ++ '.' :: (stos "0" ++ '.' ::
      stos "5"))) = true :=
  ⟨by decide,
   (c1_amended (stos "10") (stos "0") (stos "0") (stos "5") 10 0 (by decide)
      (by decide) (by decide) (by decide) (Or.inl rfl)).1⟩

/-- C3 counterexample: `validate_file` reports zero findings for a file
containing only `203.0.113.77` — the approved rule for the TEST-NET-3
prefix matches the address as an unanchored substring and suppresses the
public-IP finding the claim expects. -/
theorem c3_counterexample :
    validate_file (Except.ok (stos "203.0.113.77")) = (true, []) := by
  decide

/-- C3 amended: `8.8.8.8` yields zero findings, and `203.0.113.77` also
yields zero findings, because the approved-anonymization rule
`203\.0\.113\.` matches it as an unanchored substring. -/
theorem c3_amended :
    validate_file (Except.ok (stos "8.8.8.8")) = (true, [])
    ∧ validate_file (Except.ok (stos "203.0.113.77")) = (true, [])
    ∧ is_approved_anonymization (stos "203.0.113.77") = true := by
  refine ⟨by decide, by decide, by decide⟩

/-- C4 counterexample: `validate_file` treats an unreadable file as a
failure (`is_valid = false`), not as a clean result. -/
theorem c4_counterexample :
    (validate_file (Except.error (stos "boom"))).1 = false := by
  rfl

/-- C4 amended: a read error is handled differently by the three
operations: `scan_file` returns a clean result and records a warning;
`check_file` returns a clean result with no warning at all; and
`validate_file` reports the file as invalid with a read-error message. -/
theorem c4_amended :
    (∀ e : Str, validate_file (Except.error e) =
        (false, [⟨0, stos "Could not read file: " ++ e, []⟩]))
    ∧ (∀ e : Str, check_file (stos "notes.txt") (stos ".txt")
        (Except.error e) = (true, []))
    ∧ (∀ e : Str, scan_file true (stos "notes.txt") (stos "notes.txt") true
        (Except.ok false) (Except.error e) =
      ⟨[], [stos "Could not read: " ++ e], stos "notes.txt", false⟩) := by
  refine ⟨fun e => rfl, fun e => rfl, fun e => rfl⟩

/-- C6 counterexample: `scan_file` has no binary-extension check: scanning
a `.png` path whose bytes decode to `41.2.3.4` produces an IP finding
rather than an empty, clean result. -/
theorem c6_counterexample :
    scan_file true (stos "x.png") (stos "x.png") true (Except.ok false)
        (Except.ok (stos "41.2.3.4")) =
      ⟨[⟨1, stos "Non-RFC 1918 IP address", stos "41.2.3.4",
          stos "ip_non_rfc1918"⟩], [], stos "x.png", false⟩ := by
  decide

/-- C6 amended: a skip-listed filename short-circuits both `scan_file` and
`check_file` to an empty, clean result; a binary extension short-circuits
only `check_file` — the repository scan has no extension check. -/
theorem c6_amended :
    (∀ (rules : List (Bool × RE)) (ex : Bool) (name path : Str)
        (hr : Bool) (ir : Except Unit Bool) (c : Except Str Str),
        name ∈ SKIP_FILES →
        scan_file_with rules ex name path hr ir c = ⟨[], [], path, false⟩)
    ∧ (∀ (fname sfx : Str) (c : Except Str Str), fname ∈ SKIP_FILES →
        check_file fname sfx c = (true, []))
    ∧ (∀ (fname sfx : Str) (c : Except Str Str), sfx ∈ binary_suffixes →
        check_file fname sfx c = (true, [])) := by
  refine ⟨?_, ?_, ?_⟩
  · intro rules ex name path hr ir c h
    unfold scan_file_with
    cases ex <;> simp [h]
  · intro fname sfx c h
    unfold check_file check_file_with
    simp [h]
  · intro fname sfx c h
    unfold check_file check_file_with
    by_cases hf : fname ∈ SKIP_FILES <;> simp [hf, h]

/-- C6 witness: `security_scan.py` is skip-listed, and `.png` is a binary
suffix. -/
theorem c6_amended_witness :
    ((stos "security_scan.py") ∈ SKIP_FILES
      ∧ scan_file_with [] true (stos "security_scan.py") (stos "p") true
          (Except.ok false) (Except.ok []) = ⟨[], [], stos "p", false⟩)
    ∧ ((stos ".png") ∈ binary_suffixes
      ∧ check_file (stos "img.png") (stos ".png")
          (Except.ok (stos "41.2.3.4")) = (true, [])) :=
  ⟨⟨by decide, c6_amended.1 [] true (stos "security_scan.py") (stos "p") true
      (Except.ok false) (Except.ok []) (by decide)⟩,
   ⟨by decide, c6_amended.2.2 (stos "img.png") (stos ".png")
      (Except.ok (stos "41.2.3.4")) (by decide)⟩⟩

/-- C7: the content `password = "hunter2"` produces exactly one issue, of
the hardcoded-password category, at line 1 (the matched text stops before
the closing quote because the value class excludes quotes). -/
theorem c7_password_single_finding :
    check_file (stos "snippet.txt") (stos ".txt")
        (Except.ok (stos "password = \x22hunter2\x22")) =
      (false, [⟨1, stos "Hardcoded password", stos "password = \x22hunter2",
        false⟩]) := by
  decide

/-- The substrings whose presence anywhere in a text makes the RFC1918
allow rule `(?:10|172\.(?:1[6-9]|2[0-9]|3[01])|192\.168)\.` match under
`re.search` (the rule is an unanchored alternation followed by a dot). -/
def rfc1918Subs : List Str :=
  [stos "10.", stos "192.168.", stos "172.16.", stos "172.17.",
   stos "172.18.", stos "172.19.", stos "172.20.", stos "172.21.",
   stos "172.22.", stos "172.23.", stos "172.24.", stos "172.25.",
   stos "172.26.", stos "172.27.", stos "172.28.", stos "172.29.",
   stos "172.30.", stos "172.31."]

/-- C10: any text containing one of the RFC1918-looking substrings
anywhere — wherever it sits in the text, as in the public address
`55.10.1.2` — satisfies the approved-anonymization test and the whitelist
test, so the corresponding match is suppressed; concretely, a file
containing only `55.10.1.2` yields no finding from either the sensitive
data check or the repository scan. -/
theorem c10_rfc1918_substring_suppression (t l r p : Str)
    (hp : p ∈ rfc1918Subs) (ht : t = l ++ (p ++ r)) :
    is_approved_anonymized t = true
    ∧ (∀ pat : Str, is_whitelisted t pat = true)
    ∧ check_file (stos "doc.md") (stos ".md")
        (Except.ok (stos "55.10.1.2")) = (true, [])
    ∧ scan_file true (stos "doc.md") (stos "doc.md") true (Except.ok false)
        (Except.ok (stos "55.10.1.2")) = ⟨[], [], stos "doc.md", false⟩ := by
  have hplain : plain rfc1918_allow_re = true := by decide
  have hbase : ∀ q ∈ rfc1918Subs,
      (mtop true 60 rfc1918_allow_re none q).isSome = true := by decide
  have hsearch : re_search true rfc1918_allow_re t = true := by
    subst ht
    exact re_search_of_parts true rfc1918_allow_re 60 l p r hplain (by omega)
      (hbase p hp)
  have hmem : (false, rfc1918_allow_re) ∈ APPROVED_ANON := by
    unfold APPROVED_ANON
    exact List.mem_cons_of_mem _ (List.mem_cons_of_mem _
      (List.mem_cons_self _ _))
  have happr : is_approved_anonymized t = true :=
    anyApproved_of_mem true APPROVED_ANON (false, rfc1918_allow_re) t hmem
      hsearch
  exact ⟨happr, fun _ => happr, by decide, by decide⟩

/-- C10 witness: `55.10.1.2` decomposes around the substring `10.`. -/
theorem c10_witness :
    (stos "10.") ∈ rfc1918Subs
    ∧ is_approved_anonymized (stos "55.10.1.2") = true :=
  ⟨by decide,
   (c10_rfc1918_substring_suppression (stos "55.10.1.2") (stos "55.")
      (stos "1.2") (stos "10.") (by decide) (by decide)).1⟩

end Dudeatron


